import Mathlib

/-!
Verification of the pypixelcolor command payload encoding and windowed
transport protocol, as a shallow embedding of the Python sources
(`commands/send_text.py`, `commands/send_image.py`, `commands/scoreboard.py`).

Bytes are modelled as `Nat` values (kept below 256 by the operations that
produce them); byte strings are `List Nat`.  Python functions that can
raise are modelled with `Except String`.  PIL rasterization and the emoji
asset provider are external collaborators and enter the embedding as
function parameters (`render`, `fetch`, `charToHex`, ...); everything the
command modules compute from their results is translated from the source.
-/

namespace PyPixelColor

/-- Little-endian encoding of `n` on `k` bytes
(Python `n.to_bytes(k, byteorder="little")`). -/
def toLE : Nat → Nat → List Nat
  | 0, _ => []
  | k + 1, n => n % 256 :: toLE k (n / 256)

/-- Big-endian encoding of `n` on `k` bytes
(Python `n.to_bytes(k, byteorder="big")`). -/
def toBE (k n : Nat) : List Nat :=
  (toLE k n).reverse

/-- One bit step of the reflected CRC-32 division (polynomial
0xEDB88320), as computed by `binascii.crc32`. -/
def crc32Step (crc : Nat) : Nat :=
  if crc % 2 = 1 then (crc / 2) ^^^ 0xEDB88320 else crc / 2

/-- Fold one byte into the running CRC-32 state. -/
def crc32Byte (crc b : Nat) : Nat :=
  crc32Step (crc32Step (crc32Step (crc32Step
    (crc32Step (crc32Step (crc32Step (crc32Step (crc ^^^ (b % 256)))))))))

/-- `binascii.crc32(data) & 0xFFFFFFFF`: standard unsigned CRC-32 of a
byte string. -/
def crc32 (data : List Nat) : Nat :=
  (data.foldl crc32Byte 0xFFFFFFFF) ^^^ 0xFFFFFFFF

/-- `send_text._reverse_bits_16`: reverse the bits of a 16-bit integer by
the four swap-mask stages (bytes, nibbles, bit pairs, adjacent bits). -/
def reverse_bits_16 (n : Nat) : Nat :=
  let n1 := ((n &&& 0xFF00) >>> 8) ||| ((n &&& 0x00FF) <<< 8)
  let n2 := ((n1 &&& 0xF0F0) >>> 4) ||| ((n1 &&& 0x0F0F) <<< 4)
  let n3 := ((n2 &&& 0xCCCC) >>> 2) ||| ((n2 &&& 0x3333) <<< 2)
  ((n3 &&& 0xAAAA) >>> 1) ||| ((n3 &&& 0x5555) <<< 1)

/-- Loop body of `_logic_reverse_bits_order_bytes`: read each 2-byte
chunk little-endian, reverse its 16 bits, write it back big-endian. -/
def reversePairs : List Nat → List Nat
  | a :: b :: rest => toBE 2 (reverse_bits_16 (a + 256 * b)) ++ reversePairs rest
  | _ => []

/-- `send_text._logic_reverse_bits_order_bytes`: reverse the bit order in
each 16-bit chunk; raises `ValueError` when the length is odd. -/
def logic_reverse_bits_order_bytes (data : List Nat) : Except String (List Nat) :=
  if data.length % 2 ≠ 0 then
    .error "Data length must be multiple of 2 bytes for bit reversal"
  else
    .ok (reversePairs data)

/-- `true` on `Except.ok`, `false` on `Except.error`. -/
def isOkE {α : Type} (e : Except String α) : Bool :=
  match e with
  | .ok _ => true
  | .error _ => false

/-- Modelled from the spec: a Window carries the raw bytes to write and a
requires-acknowledgement flag (`lib/transport/send_plan.py` is not among
the sources). -/
structure Window where
  data : List Nat
  requiresAck : Bool

/-- Modelled from the spec: a SendPlan is a named, ordered sequence of
Windows (`lib/transport/send_plan.py` is not among the sources). -/
structure SendPlan where
  name : String
  windows : List Window

/-- Modelled from the spec: device pixel dimensions
(`lib/device_info.py` is not among the sources). -/
structure DeviceInfo where
  width : Nat
  height : Nat

/-- The 12 KiB window boundary used by both `send_text` and `send_image`. -/
def windowSize : Nat := 12 * 1024

/-- Frame header of one `send_text` window:
`[00 01 option]` + payload size (4 LE) + CRC (4 LE) + `[00 save_slot]`. -/
def sendTextFrameHeader (opt totalSize crc slot : Nat) : List Nat :=
  [0x00, 0x01, opt] ++ toLE 4 totalSize ++ toLE 4 crc ++ [0x00, slot % 256]

/-- One wire message: a 2-byte LE length prefix over header + chunk + 2,
then the frame content (shared by `send_text` and `send_image`). -/
def mkMessage (header chunk : List Nat) : List Nat :=
  toLE 2 ((header ++ chunk).length + 2) ++ (header ++ chunk)

/-- The `while pos < payload_size` loop of `send_text`; the fuel argument
bounds the iteration count (each iteration consumes at least one payload
byte, so `remaining.length` iterations always suffice). -/
def sendTextFramesLoopFuel (fuel : Nat) (remaining : List Nat)
    (totalSize crc slot idx : Nat) : List Window :=
  match fuel with
  | 0 => []
  | fuel + 1 =>
    if remaining = [] then []
    else
      Window.mk (mkMessage (sendTextFrameHeader (if idx = 0 then 0x00 else 0x02)
          totalSize crc slot) (remaining.take windowSize)) true ::
        sendTextFramesLoopFuel fuel (remaining.drop windowSize) totalSize crc slot (idx + 1)

/-- The multi-frame loop of `send_text`: slice the payload at the 12 KiB
boundary; option byte 0x00 for the first window and 0x02 afterwards. -/
def sendTextFramesLoop (remaining : List Nat) (totalSize crc slot idx : Nat) :
    List Window :=
  sendTextFramesLoopFuel remaining.length remaining totalSize crc slot idx

/-- `send_text` framing stage: total size and CRC-32 are computed once
over the logical payload, before chunking. -/
def sendTextFrames (payload : List Nat) (slot : Nat) : List Window :=
  sendTextFramesLoop payload payload.length (crc32 payload) slot 0

/-- The payload slice a window carries: everything after the 2-byte
prefix and the 13-byte frame header. -/
def Window.payloadSlice (w : Window) : List Nat := w.data.drop 15

/-- The 4 CRC bytes of a window's header (offsets 9..12 of the message). -/
def Window.crcField (w : Window) : List Nat := (w.data.drop 9).take 4

/-- The 4 total-length bytes of a window's header (offsets 5..8). -/
def Window.totalField (w : Window) : List Nat := (w.data.drop 5).take 4

/-- The option byte of a window's header (offset 4 of the message). -/
def Window.optionByte (w : Window) : Option Nat := (w.data.drop 4).head?

/-- The secondary "serial" byte of an image frame header (offset 14, the
last header byte). -/
def Window.serialByte (w : Window) : Option Nat := (w.data.drop 14).head?

/-- Frame header of one `send_image` window: type tag 0x03 (GIF) or 0x02
(static), option byte, 4-byte size, 4-byte CRC, then the tail pair —
`[0x02, serial]` for GIFs, the constant `[0x00, 0x65]` for static images. -/
def sendImageHeader (isGif : Bool) (opt serial : Nat)
    (sizeB crcB : List Nat) : List Nat :=
  if isGif then [0x03, 0x00, opt] ++ sizeB ++ crcB ++ [0x02, serial]
  else [0x02, 0x00, opt] ++ sizeB ++ crcB ++ [0x00, 0x65]

/-- The `while pos < len(payload)` loop of `send_image`, fuel-bounded the
same way as the text loop. -/
def sendImageFramesLoopFuel (fuel : Nat) (remaining : List Nat) (isGif : Bool)
    (sizeB crcB : List Nat) (idx : Nat) : List Window :=
  match fuel with
  | 0 => []
  | fuel + 1 =>
    if remaining = [] then []
    else
      Window.mk (mkMessage (sendImageHeader isGif (if idx = 0 then 0x00 else 0x02)
          (if idx = 0 then 0x01 else 0x65) sizeB crcB) (remaining.take windowSize)) true ::
        sendImageFramesLoopFuel fuel (remaining.drop windowSize) isGif sizeB crcB (idx + 1)

/-- The multi-window loop of `send_image`: option 0x00 then 0x02, serial
0x01 then 0x65 (the serial only reaches GIF headers). -/
def sendImageFramesLoop (remaining : List Nat) (isGif : Bool)
    (sizeB crcB : List Nat) (idx : Nat) : List Window :=
  sendImageFramesLoopFuel remaining.length remaining isGif sizeB crcB idx

/-- `send_image` framing: size and CRC computed once over the file bytes
before chunking. -/
def sendImageWindows (fileBytes : List Nat) (isGif : Bool) : List Window :=
  sendImageFramesLoop fileBytes isGif (toLE 4 fileBytes.length)
    (toLE 4 (crc32 fileBytes)) 0

/-- `send_text._char_to_hex` width clamp: the measured ink width is
clamped to 9–16 for 32px glyphs and to 1–8 otherwise. -/
def clampCharWidth (charSize measured : Nat) : Nat :=
  if charSize = 32 then max 9 (min measured 16) else max 1 (min measured 8)

/-- The clamp as the specification words it: 1–16 for 16px-height fonts,
9–16 for 32px glyphs. -/
def clampCharWidthSpec (charSize measured : Nat) : Nat :=
  if charSize = 32 then max 9 (min measured 16) else max 1 (min measured 16)

/-- The parameter validation phase of `send_text`: the range checks in
source order, then the device-dependent rejection of animations 3 and 4
(applied only when device information is present and the device is not
32×32). -/
def validateSendTextParams (rainbow anim slot speed textLen charHeight : Nat)
    (dev : Option DeviceInfo) : Except String Unit :=
  if 9 < rainbow then .error "Rainbow mode must be between 0 and 9"
  else if 7 < anim then .error "Animation must be between 0 and 7"
  else if 255 < slot then .error "Save slot must be between 0 and 255"
  else if 100 < speed then .error "Speed must be between 0 and 100"
  else if textLen < 1 ∨ 500 < textLen then
    .error "Text length must be between 1 and 500"
  else if charHeight < 1 ∨ 128 < charHeight then
    .error "Char height must be between 1 and 128"
  else
    match dev with
    | some d =>
        if (d.height ≠ 32 ∨ d.width ≠ 32) ∧ (anim = 3 ∨ anim = 4) then
          .error "This animation is not supported with this font on non-32x32 devices."
        else .ok ()
    | none => .ok ()

/-- `send_text._encode_character_block`: tag byte, color or JPEG length
fields, then the raw character bytes. -/
def encode_character_block (charBytes : List Nat) (textSize : Nat)
    (colorBytes : List Nat) (emoji : Bool) : List Nat :=
  if textSize = 32 then
    if emoji then 0x09 :: (toLE 2 charBytes.length ++ (0x00 :: charBytes))
    else 0x02 :: (colorBytes ++ charBytes)
  else
    if emoji then 0x08 :: (toLE 2 charBytes.length ++ (0x00 :: charBytes))
    else 0x00 :: (colorBytes ++ charBytes)

/-- A rasterized glyph chunk: pixel rows (true = ink) and the image
width.  Stands for the PIL image handed to `_encode_char_img`. -/
structure PixelImage where
  width : Nat
  rows : List (List Bool)

/-- The per-row accumulator pair of `_encode_char_img`: `line_value`
collects bit 15-x for columns x < 16, `line_value_2` collects bit 31-x
for columns 16 ≤ x (widths beyond 32 do not occur at the call sites,
whose chunk widths are 8 or 16). -/
def lineValuesAux : List Bool → Nat → Nat × Nat
  | [], _ => (0, 0)
  | px :: rest, x =>
    let vs := lineValuesAux rest (x + 1)
    if px then
      if x < 16 then (vs.1 ||| (1 <<< (15 - x)), vs.2)
      else (vs.1, vs.2 ||| (1 <<< (31 - x)))
    else vs

/-- One row of `_encode_char_img`: merge the two accumulators when the
width exceeds 16 columns, then emit 1/2/3/4 big-endian bytes by width. -/
def encodeCharRow (width : Nat) (row : List Bool) : List Nat :=
  let vs := lineValuesAux (row.take width) 0
  let lv := if 16 < width then vs.2 ||| (vs.1 <<< 16) else vs.1
  if width ≤ 8 then toBE 1 (lv >>> 8)
  else if width ≤ 16 then toBE 2 lv
  else if width ≤ 24 then toBE 3 (lv >>> 8)
  else toBE 4 lv

/-- `send_text._encode_char_img`: pack a glyph image row by row. -/
def encode_char_img (img : PixelImage) : List Nat :=
  (img.rows.map (encodeCharRow img.width)).flatten

/-- One segment of the variable-width text pass: a run of plain
characters or a single emoji token. -/
inductive Segment where
  | text : List Char → Segment
  | emoji : Char → Segment

/-- The segmentation loop of `_encode_text_chunked`: plain characters
accumulate into `cur`; an emoji flushes the pending run and stands
alone. -/
def segmentGo (isEmo : Char → Bool) (cur : List Char) : List Char → List Segment
  | [] => if cur = [] then [] else [Segment.text cur]
  | c :: rest =>
    if isEmo c then
      (if cur = [] then [] else [Segment.text cur])
        ++ Segment.emoji c :: segmentGo isEmo [] rest
    else
      segmentGo isEmo (cur ++ [c]) rest

/-- Segment a text, in original order. -/
def segmentsOf (isEmo : Char → Bool) (text : List Char) : List Segment :=
  segmentGo isEmo [] text

/-- The per-chunk body of `_encode_text_chunked`'s text branch: pack the
chunk, apply the 16-bit reversal (which may raise), wrap as an item. -/
def chunkItems (h : Nat) (color : List Nat) :
    List PixelImage → Except String (List (List Nat))
  | [] => .ok []
  | img :: rest =>
    match logic_reverse_bits_order_bytes (encode_char_img img) with
    | .error e => .error e
    | .ok rb =>
      match chunkItems h color rest with
      | .error e => .error e
      | .ok rest' => .ok (encode_character_block rb h color false :: rest')

/-- Items contributed by one segment: an emoji resolves through the
asset fetch (`_emoji_to_hex`) — `none` means the token is skipped; a
text run renders to chunks. -/
def segmentItems (fetch : Char → Option (List Nat))
    (render : List Char → List PixelImage) (h : Nat) (color : List Nat) :
    Segment → Except String (List (List Nat))
  | .emoji e =>
    match fetch e with
    | some b => .ok [encode_character_block b h color true]
    | none => .ok []
  | .text s => chunkItems h color (render s)

/-- The item-collection loop over all segments, in order. -/
def itemsOfSegments (fetch : Char → Option (List Nat))
    (render : List Char → List PixelImage) (h : Nat) (color : List Nat) :
    List Segment → Except String (List (List Nat))
  | [] => .ok []
  | s :: rest =>
    match segmentItems fetch render h color s with
    | .error e => .error e
    | .ok here =>
      match itemsOfSegments fetch render h color rest with
      | .error e => .error e
      | .ok rest' => .ok (here ++ rest')

/-- `send_text._encode_text_chunked`: segment, collect items, optionally
reverse the item order for RTL, and return the concatenated bytes
together with the item count taken from the same pass. -/
def encode_text_chunked (isEmo : Char → Bool) (fetch : Char → Option (List Nat))
    (render : List Char → List PixelImage) (h : Nat) (color : List Nat)
    (rev : Bool) (text : List Char) : Except String (List Nat × Nat) :=
  if color.length ≠ 3 then
    .error "Color must be 3 bytes (6 hex chars), e.g. ffffff"
  else
    match itemsOfSegments fetch render h color (segmentsOf isEmo text) with
    | .error e => .error e
    | .ok items =>
      let items' := if rev then items.reverse else items
      .ok (items'.flatten, items'.length)

/-- The property-header bytes of `send_text`: three reserved bytes,
animation, speed, rainbow, the color, then the background block. -/
def sendTextProperties (anim speed rainbow : Nat) (color : List Nat)
    (bg : Option (List Nat)) : List Nat :=
  [0x00, 0x01, 0x01] ++ [anim % 256, speed % 256, rainbow % 256] ++ color ++
    (match bg with
     | some b => 0x01 :: b
     | none => [0x00, 0x00, 0x00, 0x00])

/-- `send_text`, variable-width path: encode the text in chunks, prepend
the item count returned by the encoding pass, frame, and build the plan.
Python's `bytes([num_chars])` raises for counts above 255. -/
def send_text_var (isEmo : Char → Bool) (fetch : Char → Option (List Nat))
    (render : List Char → List PixelImage) (anim speed rainbow slot h : Nat)
    (color : List Nat) (bg : Option (List Nat)) (text : List Char) :
    Except String SendPlan :=
  match encode_text_chunked isEmo fetch render h color (anim == 2) text with
  | .error e => .error e
  | .ok (bytes, n) =>
    if 255 < n then .error "bytes must be in range(0, 256)"
    else .ok (SendPlan.mk "send_text"
      (sendTextFrames (n :: (sendTextProperties anim speed rainbow color bg ++ bytes)) slot))

/-- One character of `_encode_text` (fixed-width path): a failed emoji
fetch or glyph conversion yields `none` and the character is skipped;
the bit reversal on bitmap bytes may raise. -/
def fixedCharBlock (isEmo : Char → Bool)
    (emojiToHex charToHex : Char → Option (List Nat)) (h : Nat)
    (color : List Nat) (c : Char) : Except String (Option (List Nat)) :=
  if isEmo c then
    .ok ((emojiToHex c).map (fun b => encode_character_block b h color true))
  else
    match charToHex c with
    | none => .ok none
    | some b =>
      match logic_reverse_bits_order_bytes b with
      | .error e => .error e
      | .ok r => .ok (some (encode_character_block r h color false))

/-- The block-building loop of `_encode_text`: one optional block per
character, in text order. -/
def encodeTextFixedBlocks (isEmo : Char → Bool)
    (emojiToHex charToHex : Char → Option (List Nat)) (h : Nat)
    (color : List Nat) : List Char → Except String (List (List Nat))
  | [] => .ok []
  | c :: rest =>
    match fixedCharBlock isEmo emojiToHex charToHex h color c with
    | .error e => .error e
    | .ok ob =>
      match encodeTextFixedBlocks isEmo emojiToHex charToHex h color rest with
      | .error e => .error e
      | .ok rest' => .ok (ob.toList ++ rest')

/-- `send_text`, fixed-width path: the declared item count is recomputed
as `len(text)` instead of being taken from the encoding pass. -/
def send_text_fixed (isEmo : Char → Bool)
    (emojiToHex charToHex : Char → Option (List Nat))
    (anim speed rainbow slot h : Nat) (color : List Nat)
    (bg : Option (List Nat)) (text : List Char) : Except String SendPlan :=
  if color.length ≠ 3 then
    .error "Color must be 3 bytes (6 hex chars), e.g. ffffff"
  else
    match encodeTextFixedBlocks isEmo emojiToHex charToHex h color
        (if anim == 2 then text.reverse else text) with
    | .error e => .error e
    | .ok blocks =>
      if 255 < text.length then .error "bytes must be in range(0, 256)"
      else .ok (SendPlan.mk "send_text"
        (sendTextFrames (text.length ::
          (sendTextProperties anim speed rainbow color bg ++ blocks.flatten)) slot))

/-- Item count a single encoding pass yields: a skipped emoji token
(failed fetch) contributes nothing; a text run contributes one item per
rendered chunk. -/
def expectedItemCount (fetch : Char → Option (List Nat))
    (render : List Char → List PixelImage) : List Segment → Nat
  | [] => 0
  | .emoji e :: rest =>
      (if (fetch e).isSome then 1 else 0) + expectedItemCount fetch render rest
  | .text s :: rest => (render s).length + expectedItemCount fetch render rest

/-- Item count a single fixed-width encoding pass yields: each character
whose conversion succeeds (glyph bitmap, or emoji fetch) contributes one
block; failed conversions contribute nothing. -/
def expectedFixedBlockCount (isEmo : Char → Bool)
    (emojiToHex charToHex : Char → Option (List Nat)) : List Char → Nat
  | [] => 0
  | c :: rest =>
    (if isEmo c then (if (emojiToHex c).isSome then 1 else 0)
     else (if (charToHex c).isSome then 1 else 0))
      + expectedFixedBlockCount isEmo emojiToHex charToHex rest

/-- Concrete emoji classifier for the evaluations below. -/
def exIsEmoji : Char → Bool := fun c => c == 'e'

/-- Concrete glyph converter: the character A yields a 16-byte bitmap. -/
def exCharToHex : Char → Option (List Nat) :=
  fun c => if c == 'A' then some (List.replicate 16 0) else none

/-- An emoji fetch that always fails (asset miss). -/
def exEmojiFetchFail : Char → Option (List Nat) := fun _ => none

/-- An emoji fetch that always succeeds with a 3-byte JPEG stub. -/
def exEmojiFetchOk : Char → Option (List Nat) := fun _ => some [1, 2, 3]

/-- A renderer producing no chunks (no plain-text runs are exercised). -/
def exRenderEmpty : List Char → List PixelImage := fun _ => []

/-- Concrete color bytes for the evaluations below. -/
def exColor : List Nat := [255, 255, 255]

/-- The failing C1 input: a glyph followed by an emoji token. -/
def exText : List Char := ['A', 'e']

/-- The single item block the fixed-width pass emits for `exText` when
the emoji fetch fails: tag 0x00, color, then the 16 packed glyph bytes. -/
def exFixedBlock : List Nat := 0x00 :: (exColor ++ List.replicate 16 0)

/-- The top-level names bound by `commands/send_image.py` (read from the
module source: constants, the enum, the helpers, the two commands). -/
def sendImageModuleNames : List String :=
  ["HEIF_AVAILABLE", "logger", "ResizeMethod", "_frame_size_bytes", "_crc32_le",
   "_len_prefix_for", "_load_from_file", "_resize_and_crop_image",
   "_resize_and_fit_image", "_resize_image", "send_image", "send_image_hex"]

/-- The name `commands/scoreboard.py` imports from the send_image module. -/
def scoreboardImportedName : String := "_build_send_plan"

/-- Python import resolution for
`from .send_image import _build_send_plan`: succeeds exactly when the
name is bound at the imported module's top level. -/
def resolveScoreboardImport : Except String Unit :=
  if sendImageModuleNames.contains scoreboardImportedName then .ok ()
  else .error "ImportError: cannot import name _build_send_plan from send_image"

/-- `scoreboard.set_sb_teams`: its module must import `_build_send_plan`
before any command body can run; the body is abstract here because that
failed import already decides the outcome. -/
def set_sb_teams_model (body : Unit → Except String SendPlan) :
    Except String SendPlan :=
  match resolveScoreboardImport with
  | .error e => .error e
  | .ok _ => body ()

/-- `scoreboard.set_sb_score`, same import gate as `set_sb_teams`. -/
def set_sb_score_model (body : Unit → Except String SendPlan) :
    Except String SendPlan :=
  match resolveScoreboardImport with
  | .error e => .error e
  | .ok _ => body ()

/-! ## Helper lemmas -/

theorem toLE_length (k n : Nat) : (toLE k n).length = k := by
  induction k generalizing n with
  | zero => rfl
  | succ k ih => simp [toLE, ih]

/-- Bit-level characterization of the four swap-mask stages: bit `i` of
the reversed value is bit `15 - i` of the input, for every input (the
stage masks discard bits above 15). -/
theorem rev16_testBit (y : Nat) :
    ∀ i : Nat, i < 16 →
      (reverse_bits_16 y).testBit i = y.testBit (15 - i) := by
  intro i hi
  unfold reverse_bits_16
  interval_cases i <;>
    (simp only [Nat.testBit_or, Nat.testBit_and, Nat.testBit_shiftRight,
      Nat.testBit_shiftLeft]
     simp [Nat.testBit_to_div_mod])

/-- The reversal never produces a value outside 16 bits. -/
theorem rev16_lt (y : Nat) : reverse_bits_16 y < 65536 := by
  have key : ∀ z : Nat, (z &&& 0xAAAA) >>> 1 ||| (z &&& 0x5555) <<< 1 < 65536 := by
    intro z
    have ha : z &&& 0xAAAA ≤ 0xAAAA := Nat.and_le_right
    have hb : z &&& 0x5555 ≤ 0x5555 := Nat.and_le_right
    have ha2 : (z &&& 0xAAAA) >>> 1 < 2 ^ 16 := by
      rw [Nat.shiftRight_one]
      norm_num
      omega
    have hb2 : (z &&& 0x5555) <<< 1 < 2 ^ 16 := by
      rw [Nat.shiftLeft_eq, pow_one]
      norm_num
      omega
    have h := Nat.or_lt_two_pow ha2 hb2
    norm_num at h
    exact h
  unfold reverse_bits_16
  exact key _

theorem sendTextFramesLoopFuel_irrel (t c s : Nat) :
    ∀ (fuel₁ fuel₂ : Nat) (remaining : List Nat) (i : Nat),
      remaining.length ≤ fuel₁ → remaining.length ≤ fuel₂ →
      sendTextFramesLoopFuel fuel₁ remaining t c s i
        = sendTextFramesLoopFuel fuel₂ remaining t c s i := by
  intro fuel₁
  induction fuel₁ with
  | zero =>
    intro fuel₂ remaining i h₁ h₂
    have hr : remaining = [] := List.eq_nil_of_length_eq_zero (by omega)
    subst hr
    cases fuel₂ <;> simp [sendTextFramesLoopFuel]
  | succ fuel₁ ih =>
    intro fuel₂ remaining i h₁ h₂
    by_cases hr : remaining = []
    · subst hr
      cases fuel₂ <;> simp [sendTextFramesLoopFuel]
    · have hp : 0 < remaining.length := List.length_pos.mpr hr
      cases fuel₂ with
      | zero => omega
      | succ fuel₂ =>
        simp only [sendTextFramesLoopFuel, if_neg hr]
        have hd : (remaining.drop windowSize).length ≤ fuel₁ := by
          rw [List.length_drop]
          simp [windowSize]
          omega
        have hd₂ : (remaining.drop windowSize).length ≤ fuel₂ := by
          rw [List.length_drop]
          simp [windowSize]
          omega
        rw [ih fuel₂ (remaining.drop windowSize) (i + 1) hd hd₂]

theorem sendTextFramesLoop_nil (t c s i : Nat) :
    sendTextFramesLoop [] t c s i = [] := by
  simp [sendTextFramesLoop, sendTextFramesLoopFuel]

theorem sendTextFramesLoop_cons (remaining : List Nat) (t c s i : Nat)
    (h : remaining ≠ []) :
    sendTextFramesLoop remaining t c s i =
      Window.mk (mkMessage (sendTextFrameHeader (if i = 0 then 0x00 else 0x02) t c s)
          (remaining.take windowSize)) true ::
        sendTextFramesLoop (remaining.drop windowSize) t c s (i + 1) := by
  have hp : 0 < remaining.length := List.length_pos.mpr h
  unfold sendTextFramesLoop
  cases hl : remaining.length with
  | zero => omega
  | succ m =>
    simp only [sendTextFramesLoopFuel, if_neg h]
    congr 1
    apply sendTextFramesLoopFuel_irrel
    · rw [List.length_drop]
      simp [windowSize]
      omega
    · exact Nat.le_refl _

theorem sendImageFramesLoopFuel_irrel (g : Bool) (sb cb : List Nat) :
    ∀ (fuel₁ fuel₂ : Nat) (remaining : List Nat) (i : Nat),
      remaining.length ≤ fuel₁ → remaining.length ≤ fuel₂ →
      sendImageFramesLoopFuel fuel₁ remaining g sb cb i
        = sendImageFramesLoopFuel fuel₂ remaining g sb cb i := by
  intro fuel₁
  induction fuel₁ with
  | zero =>
    intro fuel₂ remaining i h₁ h₂
    have hr : remaining = [] := List.eq_nil_of_length_eq_zero (by omega)
    subst hr
    cases fuel₂ <;> simp [sendImageFramesLoopFuel]
  | succ fuel₁ ih =>
    intro fuel₂ remaining i h₁ h₂
    by_cases hr : remaining = []
    · subst hr
      cases fuel₂ <;> simp [sendImageFramesLoopFuel]
    · have hp : 0 < remaining.length := List.length_pos.mpr hr
      cases fuel₂ with
      | zero => omega
      | succ fuel₂ =>
        simp only [sendImageFramesLoopFuel, if_neg hr]
        have hd : (remaining.drop windowSize).length ≤ fuel₁ := by
          rw [List.length_drop]
          simp [windowSize]
          omega
        have hd₂ : (remaining.drop windowSize).length ≤ fuel₂ := by
          rw [List.length_drop]
          simp [windowSize]
          omega
        rw [ih fuel₂ (remaining.drop windowSize) (i + 1) hd hd₂]

theorem sendImageFramesLoop_nil (g : Bool) (sb cb : List Nat) (i : Nat) :
    sendImageFramesLoop [] g sb cb i = [] := by
  simp [sendImageFramesLoop, sendImageFramesLoopFuel]

theorem sendImageFramesLoop_cons (remaining : List Nat) (g : Bool)
    (sb cb : List Nat) (i : Nat) (h : remaining ≠ []) :
    sendImageFramesLoop remaining g sb cb i =
      Window.mk (mkMessage (sendImageHeader g (if i = 0 then 0x00 else 0x02)
          (if i = 0 then 0x01 else 0x65) sb cb) (remaining.take windowSize)) true ::
        sendImageFramesLoop (remaining.drop windowSize) g sb cb (i + 1) := by
  have hp : 0 < remaining.length := List.length_pos.mpr h
  unfold sendImageFramesLoop
  cases hl : remaining.length with
  | zero => omega
  | succ m =>
    simp only [sendImageFramesLoopFuel, if_neg h]
    congr 1
    apply sendImageFramesLoopFuel_irrel
    · rw [List.length_drop]
      simp [windowSize]
      omega
    · exact Nat.le_refl _

theorem sendTextFrameHeader_length (o t c s : Nat) :
    (sendTextFrameHeader o t c s).length = 13 := by
  simp [sendTextFrameHeader, toLE_length]

theorem mkMessage_payloadSlice (header chunk : List Nat)
    (hh : header.length = 13) :
    (Window.mk (mkMessage header chunk) true).payloadSlice = chunk := by
  have he : mkMessage header chunk
      = (toLE 2 ((header ++ chunk).length + 2) ++ header) ++ chunk := by
    simp [mkMessage]
  rw [Window.payloadSlice]
  simp only [he]
  rw [List.drop_left']
  simp [toLE_length, hh]

theorem mkMessage_crcField (o t c s : Nat) (chunk : List Nat) :
    (Window.mk (mkMessage (sendTextFrameHeader o t c s) chunk) true).crcField
      = toLE 4 c := by
  have he : mkMessage (sendTextFrameHeader o t c s) chunk
      = (toLE 2 ((sendTextFrameHeader o t c s ++ chunk).length + 2)
          ++ ([0x00, 0x01, o] ++ toLE 4 t))
        ++ (toLE 4 c ++ ([0x00, s % 256] ++ chunk)) := by
    simp [mkMessage, sendTextFrameHeader]
  rw [Window.crcField]
  simp only [he]
  rw [List.drop_left' (by simp [toLE_length]), List.take_left' (toLE_length 4 c)]

theorem mkMessage_totalField (o t c s : Nat) (chunk : List Nat) :
    (Window.mk (mkMessage (sendTextFrameHeader o t c s) chunk) true).totalField
      = toLE 4 t := by
  have he : mkMessage (sendTextFrameHeader o t c s) chunk
      = (toLE 2 ((sendTextFrameHeader o t c s ++ chunk).length + 2)
          ++ [0x00, 0x01, o])
        ++ (toLE 4 t ++ (toLE 4 c ++ ([0x00, s % 256] ++ chunk))) := by
    simp [mkMessage, sendTextFrameHeader]
  rw [Window.totalField]
  simp only [he]
  rw [List.drop_left' (by simp [toLE_length]), List.take_left' (toLE_length 4 t)]

theorem mkMessage_optionByte (o t c s : Nat) (chunk : List Nat) :
    (Window.mk (mkMessage (sendTextFrameHeader o t c s) chunk) true).optionByte
      = some o := by
  have he : mkMessage (sendTextFrameHeader o t c s) chunk
      = (toLE 2 ((sendTextFrameHeader o t c s ++ chunk).length + 2)
          ++ [0x00, 0x01])
        ++ (o :: (toLE 4 t ++ (toLE 4 c ++ ([0x00, s % 256] ++ chunk)))) := by
    simp [mkMessage, sendTextFrameHeader]
  rw [Window.optionByte]
  simp only [he]
  rw [List.drop_left' (by simp [toLE_length])]
  rfl

theorem sendImageHeader_serialByte (g : Bool) (o sr : Nat)
    (sb cb chunk : List Nat) (hs : sb.length = 4) (hc : cb.length = 4) :
    (Window.mk (mkMessage (sendImageHeader g o sr sb cb) chunk) true).serialByte
      = some (if g then sr else 0x65) := by
  cases g
  · have he : mkMessage (sendImageHeader false o sr sb cb) chunk
        = (toLE 2 ((sendImageHeader false o sr sb cb ++ chunk).length + 2)
            ++ ([0x02, 0x00, o] ++ (sb ++ (cb ++ [0x00]))))
          ++ (0x65 :: chunk) := by
      simp [mkMessage, sendImageHeader]
    rw [Window.serialByte]
    simp only [he]
    rw [List.drop_left' (by simp [toLE_length, hs, hc])]
    rfl
  · have he : mkMessage (sendImageHeader true o sr sb cb) chunk
        = (toLE 2 ((sendImageHeader true o sr sb cb ++ chunk).length + 2)
            ++ ([0x03, 0x00, o] ++ (sb ++ (cb ++ [0x02]))))
          ++ (sr :: chunk) := by
      simp [mkMessage, sendImageHeader]
    rw [Window.serialByte]
    simp only [he]
    rw [List.drop_left' (by simp [toLE_length, hs, hc])]
    rfl

theorem framesLoop_flatten_slices (t c s : Nat) :
    ∀ (n : Nat) (P : List Nat) (i : Nat), P.length ≤ n →
      ((sendTextFramesLoop P t c s i).map Window.payloadSlice).flatten = P := by
  intro n
  induction n with
  | zero =>
    intro P i h
    have hP : P = [] := List.eq_nil_of_length_eq_zero (by omega)
    subst hP
    simp [sendTextFramesLoop_nil]
  | succ n ih =>
    intro P i h
    by_cases hP : P = []
    · subst hP; simp [sendTextFramesLoop_nil]
    · rw [sendTextFramesLoop_cons P t c s i hP]
      have hlen : (P.drop windowSize).length ≤ n := by
        have hp : 0 < P.length := List.length_pos.mpr hP
        simp [windowSize]
        omega
      simp only [List.map_cons, List.flatten_cons,
        mkMessage_payloadSlice _ _ (sendTextFrameHeader_length _ t c s),
        ih (P.drop windowSize) (i + 1) hlen]
      exact List.take_append_drop windowSize P

theorem framesLoop_crcField (t c s : Nat) :
    ∀ (n : Nat) (P : List Nat) (i : Nat), P.length ≤ n →
      ∀ w ∈ sendTextFramesLoop P t c s i, w.crcField = toLE 4 c := by
  intro n
  induction n with
  | zero =>
    intro P i h
    have hP : P = [] := List.eq_nil_of_length_eq_zero (by omega)
    subst hP
    simp [sendTextFramesLoop_nil]
  | succ n ih =>
    intro P i h w hw
    by_cases hP : P = []
    · subst hP; simp [sendTextFramesLoop_nil] at hw
    · rw [sendTextFramesLoop_cons P t c s i hP] at hw
      have hlen : (P.drop windowSize).length ≤ n := by
        have hp : 0 < P.length := List.length_pos.mpr hP
        simp [windowSize]
        omega
      rcases List.mem_cons.mp hw with h1 | h2
      · subst h1; exact mkMessage_crcField _ t c s _
      · exact ih (P.drop windowSize) (i + 1) hlen w h2

theorem sendImageFramesLoop_gif_tail_serial (sb cb : List Nat)
    (hs : sb.length = 4) (hc : cb.length = 4) :
    ∀ (n : Nat) (P : List Nat) (i : Nat), P.length ≤ n → i ≠ 0 →
      ∀ w ∈ sendImageFramesLoop P true sb cb i, w.serialByte = some 0x65 := by
  intro n
  induction n with
  | zero =>
    intro P i h hi
    have hP : P = [] := List.eq_nil_of_length_eq_zero (by omega)
    subst hP
    simp [sendImageFramesLoop_nil]
  | succ n ih =>
    intro P i h hi w hw
    by_cases hP : P = []
    · subst hP; simp [sendImageFramesLoop_nil] at hw
    · rw [sendImageFramesLoop_cons P true sb cb i hP] at hw
      have hlen : (P.drop windowSize).length ≤ n := by
        have hp : 0 < P.length := List.length_pos.mpr hP
        simp [windowSize]
        omega
      rcases List.mem_cons.mp hw with h1 | h2
      · subst h1
        rw [sendImageHeader_serialByte true _ _ sb cb _ hs hc]
        simp [hi]
      · exact ih (P.drop windowSize) (i + 1) hlen (by omega) w h2

theorem sendImageFramesLoop_static_serial (sb cb : List Nat)
    (hs : sb.length = 4) (hc : cb.length = 4) :
    ∀ (n : Nat) (P : List Nat) (i : Nat), P.length ≤ n →
      ∀ w ∈ sendImageFramesLoop P false sb cb i, w.serialByte = some 0x65 := by
  intro n
  induction n with
  | zero =>
    intro P i h
    have hP : P = [] := List.eq_nil_of_length_eq_zero (by omega)
    subst hP
    simp [sendImageFramesLoop_nil]
  | succ n ih =>
    intro P i h w hw
    by_cases hP : P = []
    · subst hP; simp [sendImageFramesLoop_nil] at hw
    · rw [sendImageFramesLoop_cons P false sb cb i hP] at hw
      have hlen : (P.drop windowSize).length ≤ n := by
        have hp : 0 < P.length := List.length_pos.mpr hP
        simp [windowSize]
        omega
      rcases List.mem_cons.mp hw with h1 | h2
      · subst h1
        rw [sendImageHeader_serialByte false _ _ sb cb _ hs hc]
        rfl
      · exact ih (P.drop windowSize) (i + 1) hlen w h2

/-- Helper: a static (non-GIF) payload of exactly 12289 bytes produces
two windows, both with serial byte 0x65. -/
theorem sendImage_static_12289_serials (P : List Nat) (h : P.length = 12289) :
    ∃ w₁ w₂, sendImageWindows P false = [w₁, w₂]
      ∧ w₁.serialByte = some 0x65 ∧ w₂.serialByte = some 0x65 := by
  have hP : P ≠ [] := by
    intro hnil
    rw [hnil] at h
    simp at h
  have hd : (P.drop windowSize).length = 1 := by
    rw [List.length_drop, h]
    norm_num [windowSize]
  have hdropne : P.drop windowSize ≠ [] := by
    intro hnil
    rw [hnil] at hd
    simp at hd
  have hdrop2 : ((P.drop windowSize).drop windowSize) = [] := by
    apply List.eq_nil_of_length_eq_zero
    rw [List.length_drop, hd]
    norm_num [windowSize]
  unfold sendImageWindows
  rw [sendImageFramesLoop_cons _ _ _ _ 0 hP,
    sendImageFramesLoop_cons _ _ _ _ 1 hdropne, hdrop2, sendImageFramesLoop_nil]
  refine ⟨_, _, rfl, ?_, ?_⟩
  · rw [sendImageHeader_serialByte _ _ _ _ _ _ (toLE_length 4 _) (toLE_length 4 _)]
    rfl
  · rw [sendImageHeader_serialByte _ _ _ _ _ _ (toLE_length 4 _) (toLE_length 4 _)]
    rfl

theorem chunkItems_ok_length (h : Nat) (color : List Nat) :
    ∀ (imgs : List PixelImage) (items : List (List Nat)),
      chunkItems h color imgs = .ok items → items.length = imgs.length := by
  intro imgs
  induction imgs with
  | nil =>
    intro items hok
    simp [chunkItems] at hok
    simp [← hok]
  | cons img rest ih =>
    intro items hok
    simp only [chunkItems] at hok
    cases hrev : logic_reverse_bits_order_bytes (encode_char_img img) with
    | error e => rw [hrev] at hok; exact absurd hok (by simp)
    | ok rb =>
      rw [hrev] at hok
      cases hrest : chunkItems h color rest with
      | error e => rw [hrest] at hok; exact absurd hok (by simp)
      | ok rest' =>
        rw [hrest] at hok
        simp at hok
        rw [← hok]
        simp [ih rest' hrest]

theorem itemsOfSegments_ok_length (fetch : Char → Option (List Nat))
    (render : List Char → List PixelImage) (h : Nat) (color : List Nat) :
    ∀ (segs : List Segment) (items : List (List Nat)),
      itemsOfSegments fetch render h color segs = .ok items →
        items.length = expectedItemCount fetch render segs := by
  intro segs
  induction segs with
  | nil =>
    intro items hok
    simp [itemsOfSegments] at hok
    simp [← hok, expectedItemCount]
  | cons s rest ih =>
    intro items hok
    simp only [itemsOfSegments] at hok
    cases hseg : segmentItems fetch render h color s with
    | error e => rw [hseg] at hok; exact absurd hok (by simp)
    | ok here =>
      rw [hseg] at hok
      cases hrest : itemsOfSegments fetch render h color rest with
      | error e => rw [hrest] at hok; exact absurd hok (by simp)
      | ok rest' =>
        rw [hrest] at hok
        simp at hok
        subst hok
        have hlen : here.length = expectedItemCount fetch render [s] := by
          cases s with
          | emoji e =>
            simp only [segmentItems] at hseg
            cases hf : fetch e with
            | some b =>
              rw [hf] at hseg
              simp at hseg
              simp [← hseg, expectedItemCount, hf]
            | none =>
              rw [hf] at hseg
              simp at hseg
              simp [← hseg, expectedItemCount, hf]
          | text s' =>
            simp only [segmentItems] at hseg
            simp [expectedItemCount, chunkItems_ok_length h color (render s') here hseg]
        cases s with
        | emoji e =>
          simp [expectedItemCount] at hlen ⊢
          rw [hlen, ih rest' hrest]
        | text s' =>
          simp [expectedItemCount] at hlen ⊢
          rw [hlen, ih rest' hrest]

theorem itemsOfSegments_isOk_fetch_indep
    (fetch₁ fetch₂ : Char → Option (List Nat))
    (render : List Char → List PixelImage) (h : Nat) (color : List Nat) :
    ∀ segs : List Segment,
      isOkE (itemsOfSegments fetch₁ render h color segs)
        = isOkE (itemsOfSegments fetch₂ render h color segs) := by
  intro segs
  induction segs with
  | nil => rfl
  | cons s rest ih =>
    simp only [itemsOfSegments]
    cases s with
    | emoji e =>
      cases h1 : fetch₁ e <;> cases h2 : fetch₂ e <;>
        simp only [segmentItems, h1, h2] <;>
        cases hr : itemsOfSegments fetch₁ render h color rest <;>
        cases hr2 : itemsOfSegments fetch₂ render h color rest <;>
        (try simp [isOkE]) <;>
        (first
          | rfl
          | (exfalso
             have := ih
             rw [hr, hr2] at this
             simp [isOkE] at this))
    | text s' =>
      cases hc : chunkItems h color (render s') with
      | error e => simp [segmentItems, hc, isOkE]
      | ok here =>
        simp only [segmentItems, hc]
        cases hr : itemsOfSegments fetch₁ render h color rest <;>
        cases hr2 : itemsOfSegments fetch₂ render h color rest <;>
        (try simp [isOkE]) <;>
        (exfalso
         have := ih
         rw [hr, hr2] at this
         simp [isOkE] at this)

theorem fixedBlocks_isOk_emoji_indep (isEmo : Char → Bool)
    (emojiToHex₁ emojiToHex₂ charToHex : Char → Option (List Nat))
    (h : Nat) (color : List Nat) :
    ∀ text : List Char,
      isOkE (encodeTextFixedBlocks isEmo emojiToHex₁ charToHex h color text)
        = isOkE (encodeTextFixedBlocks isEmo emojiToHex₂ charToHex h color text) := by
  intro text
  induction text with
  | nil => rfl
  | cons c rest ih =>
    simp only [encodeTextFixedBlocks]
    by_cases hc : isEmo c
    · simp only [fixedCharBlock, if_pos hc]
      cases hr : encodeTextFixedBlocks isEmo emojiToHex₁ charToHex h color rest <;>
      cases hr2 : encodeTextFixedBlocks isEmo emojiToHex₂ charToHex h color rest <;>
      (try simp [isOkE]) <;>
      (exfalso
       have := ih
       rw [hr, hr2] at this
       simp [isOkE] at this)
    · have heq : fixedCharBlock isEmo emojiToHex₁ charToHex h color c
          = fixedCharBlock isEmo emojiToHex₂ charToHex h color c := by
        simp [fixedCharBlock, hc]
      rw [heq]
      cases hb : fixedCharBlock isEmo emojiToHex₂ charToHex h color c with
      | error e => simp [isOkE]
      | ok ob =>
        cases hr : encodeTextFixedBlocks isEmo emojiToHex₁ charToHex h color rest <;>
        cases hr2 : encodeTextFixedBlocks isEmo emojiToHex₂ charToHex h color rest <;>
        (try simp [isOkE]) <;>
        (exfalso
         have := ih
         rw [hr, hr2] at this
         simp [isOkE] at this)

theorem encodeTextFixedBlocks_ok_length (isEmo : Char → Bool)
    (emojiToHex charToHex : Char → Option (List Nat)) (h : Nat)
    (color : List Nat) :
    ∀ (text : List Char) (blocks : List (List Nat)),
      encodeTextFixedBlocks isEmo emojiToHex charToHex h color text = .ok blocks →
        blocks.length = expectedFixedBlockCount isEmo emojiToHex charToHex text := by
  intro text
  induction text with
  | nil =>
    intro blocks hok
    simp [encodeTextFixedBlocks] at hok
    simp [← hok, expectedFixedBlockCount]
  | cons c rest ih =>
    intro blocks hok
    simp only [encodeTextFixedBlocks] at hok
    cases hcb : fixedCharBlock isEmo emojiToHex charToHex h color c with
    | error e => rw [hcb] at hok; exact absurd hok (by simp)
    | ok ob =>
      rw [hcb] at hok
      cases hr : encodeTextFixedBlocks isEmo emojiToHex charToHex h color rest with
      | error e => rw [hr] at hok; exact absurd hok (by simp)
      | ok rest' =>
        rw [hr] at hok
        simp at hok
        subst hok
        have hone : ob.toList.length
            = (if isEmo c then (if (emojiToHex c).isSome then 1 else 0)
               else (if (charToHex c).isSome then 1 else 0)) := by
          by_cases hc : isEmo c
          · simp only [fixedCharBlock, if_pos hc] at hcb
            simp at hcb
            cases hf : emojiToHex c with
            | some b => rw [hf] at hcb; simp at hcb; simp [← hcb, hc, hf]
            | none => rw [hf] at hcb; simp at hcb; simp [← hcb, hc, hf]
          · simp only [fixedCharBlock, if_neg hc] at hcb
            cases hch : charToHex c with
            | none => simp only [hch] at hcb; simp at hcb; simp [← hcb, hc, hch]
            | some b =>
              simp only [hch] at hcb
              cases hrev : logic_reverse_bits_order_bytes b with
              | error e => simp only [hrev] at hcb; exact absurd hcb (by simp)
              | ok r =>
                simp only [hrev] at hcb
                simp at hcb
                simp [← hcb, hc, hch]
        simp only [expectedFixedBlockCount, List.length_append]
        rw [hone, ih rest' hr]

/-! ## Claim theorems -/

/-- C1: the item-count byte of the fixed-width `send_text` path is
recomputed as `len(text)` instead of being taken from the encoding pass;
with a two-character text whose emoji token fails to fetch, the encoding
pass emits exactly one ItemBlock while the built payload declares 2. -/
theorem c1_itemcount_bug :
    ((encodeTextFixedBlocks exIsEmoji exEmojiFetchFail exCharToHex 16 exColor
        exText).map List.length = .ok 1)
    ∧ ((send_text_fixed exIsEmoji exEmojiFetchFail exCharToHex 0 80 0 0 16 exColor
        none exText).map
        (fun p => (((p.windows.map Window.payloadSlice).flatten).head?,
          p.windows.length)) = .ok (some 2, 1)) := by
  constructor
  · rfl
  · rfl

/-- C2: for every payload framed by `send_text`, the windows' payload
slices concatenate to exactly the payload (so slice lengths sum to its
length), and every window's header carries the CRC-32 of the whole
payload, computed once before chunking. -/
theorem c2_windows_concat_and_crc (payload : List Nat) (slot : Nat) :
    ((sendTextFrames payload slot).map Window.payloadSlice).flatten = payload
    ∧ ((sendTextFrames payload slot).map
        (fun w => w.payloadSlice.length)).sum = payload.length
    ∧ ∀ w ∈ sendTextFrames payload slot,
        w.crcField = toLE 4 (crc32 payload) := by
  have hj := framesLoop_flatten_slices payload.length (crc32 payload) slot
    payload.length payload 0 (Nat.le_refl _)
  refine ⟨hj, ?_, ?_⟩
  · have hlen := congrArg List.length hj
    simpa [List.length_flatten, Function.comp] using hlen
  · exact framesLoop_crcField payload.length (crc32 payload) slot
      payload.length payload 0 (Nat.le_refl _)

/-- C3: a `send_text` payload of exactly 12289 bytes is framed into
exactly two windows — option byte 0x00 then 0x02 — whose headers carry
identical CRC-32 fields and identical total-length fields. -/
theorem c3_two_windows_12289 (P : List Nat) (slot : Nat)
    (h : P.length = 12289) :
    ∃ w₁ w₂, sendTextFrames P slot = [w₁, w₂]
      ∧ w₁.optionByte = some 0x00 ∧ w₂.optionByte = some 0x02
      ∧ w₁.crcField = w₂.crcField ∧ w₁.totalField = w₂.totalField := by
  have hP : P ≠ [] := by
    intro hnil
    rw [hnil] at h
    simp at h
  have hd : (P.drop windowSize).length = 1 := by
    rw [List.length_drop, h]
    norm_num [windowSize]
  have hdropne : P.drop windowSize ≠ [] := by
    intro hnil
    rw [hnil] at hd
    simp at hd
  have hdrop2 : ((P.drop windowSize).drop windowSize) = [] := by
    apply List.eq_nil_of_length_eq_zero
    rw [List.length_drop, hd]
    norm_num [windowSize]
  unfold sendTextFrames
  rw [sendTextFramesLoop_cons P _ _ _ 0 hP,
    sendTextFramesLoop_cons (P.drop windowSize) _ _ _ 1 hdropne,
    hdrop2, sendTextFramesLoop_nil]
  refine ⟨_, _, rfl, ?_, ?_, ?_, ?_⟩
  · simpa using mkMessage_optionByte 0x00 P.length (crc32 P) slot (P.take windowSize)
  · simpa using mkMessage_optionByte 0x02 P.length (crc32 P) slot
      ((P.drop windowSize).take windowSize)
  · rw [mkMessage_crcField, mkMessage_crcField]
  · rw [mkMessage_totalField, mkMessage_totalField]

/-- Witness for C3 at the concrete all-zero payload of 12289 bytes. -/
theorem c3_two_windows_12289_witness :
    ∃ w₁ w₂, sendTextFrames (List.replicate 12289 0) 5 = [w₁, w₂]
      ∧ w₁.optionByte = some 0x00 ∧ w₂.optionByte = some 0x02
      ∧ w₁.crcField = w₂.crcField ∧ w₁.totalField = w₂.totalField :=
  c3_two_windows_12289 (List.replicate 12289 0) 5 (List.length_replicate 12289 0)

/-- C4: applying the 16-bit bit-order reversal twice is the identity on
every 16-bit value. -/
theorem c4_reverse_bits_16_involutive :
    ∀ x : Nat, x < 65536 → reverse_bits_16 (reverse_bits_16 x) = x := by
  intro x hx
  apply Nat.eq_of_testBit_eq
  intro i
  by_cases hi : i < 16
  · rw [rev16_testBit _ i hi, rev16_testBit _ (15 - i) (by omega)]
    congr 1
    omega
  · have hle : (65536 : Nat) ≤ 2 ^ i := by
      calc (65536 : Nat) = 2 ^ 16 := by norm_num
        _ ≤ 2 ^ i := Nat.pow_le_pow_right (by norm_num) (by omega)
    have h1 : reverse_bits_16 (reverse_bits_16 x) < 2 ^ i :=
      lt_of_lt_of_le (rev16_lt _) hle
    have h2 : x < 2 ^ i := lt_of_lt_of_le hx hle
    rw [Nat.testBit_lt_two_pow h1, Nat.testBit_lt_two_pow h2]

/-- Witness for C4 at the concrete input 40961. -/
theorem c4_reverse_bits_16_involutive_witness :
    reverse_bits_16 (reverse_bits_16 40961) = 40961 :=
  c4_reverse_bits_16_involutive 40961 (by norm_num)

/-- C5: the per-16-bit-chunk bit reversal pass raises `ValueError`
exactly on the byte strings of odd length, and succeeds on every
even-length one. -/
theorem c5_reverse_raises_iff_odd (data : List Nat) :
    isOkE (logic_reverse_bits_order_bytes data) = false ↔ data.length % 2 = 1 := by
  by_cases h : data.length % 2 = 0
  · simp [logic_reverse_bits_order_bytes, h, isOkE]
  · simp [logic_reverse_bits_order_bytes, h, isOkE]
    omega

/-- C6 counterexample: for a 16px glyph whose measured ink width is 10,
the code clamps to 8 (range 1–8), not to the claimed range 1–16. -/
theorem c6_clamp_counterexample :
    clampCharWidth 16 10 ≠ clampCharWidthSpec 16 10 := by decide

/-- C6 amended: non-32px glyph widths are clamped to 1–8 (not 1–16);
32px glyph widths are clamped to 9–16 as claimed. -/
theorem c6_clamp_amended (m : Nat) :
    clampCharWidth 16 m = max 1 (min m 8)
    ∧ 1 ≤ clampCharWidth 16 m ∧ clampCharWidth 16 m ≤ 8
    ∧ clampCharWidth 32 m = max 9 (min m 16)
    ∧ 9 ≤ clampCharWidth 32 m ∧ clampCharWidth 32 m ≤ 16 := by
  simp [clampCharWidth]

/-- C7 counterexample: animation 3 passes validation when no device
information is provided, so the rejection is not unconditional. -/
theorem c7_unconditional_counterexample :
    validateSendTextParams 0 3 0 80 2 16 none = .ok () := rfl

/-- C7 amended: the animation id is validated to 0–7, but animations 3
and 4 are rejected only when device information is present and the
device is not 32×32; with valid parameters they are accepted both when
no device information is given and on a 32×32 device. -/
theorem c7_validation_amended (rainbow anim slot speed textLen ch : Nat)
    (d : DeviceInfo)
    (hr : rainbow ≤ 9) (hs : slot ≤ 255) (hsp : speed ≤ 100)
    (ht : 1 ≤ textLen ∧ textLen ≤ 500) (hch : 1 ≤ ch ∧ ch ≤ 128) :
    (∀ dev, 7 < anim →
        validateSendTextParams rainbow anim slot speed textLen ch dev
          = .error "Animation must be between 0 and 7")
    ∧ ((anim = 3 ∨ anim = 4) → (d.height ≠ 32 ∨ d.width ≠ 32) →
        validateSendTextParams rainbow anim slot speed textLen ch (some d)
          = .error "This animation is not supported with this font on non-32x32 devices.")
    ∧ (anim ≤ 7 →
        validateSendTextParams rainbow anim slot speed textLen ch none = .ok ())
    ∧ (anim ≤ 7 → d.width = 32 → d.height = 32 →
        validateSendTextParams rainbow anim slot speed textLen ch (some d) = .ok ()) := by
  have h1 : ¬ 9 < rainbow := by omega
  have h3 : ¬ 255 < slot := by omega
  have h4 : ¬ 100 < speed := by omega
  have h5 : ¬ (textLen < 1 ∨ 500 < textLen) := by omega
  have h6 : ¬ (ch < 1 ∨ 128 < ch) := by omega
  have h5b : ¬ (textLen = 0 ∨ 500 < textLen) := by omega
  have h6b : ¬ (ch = 0 ∨ 128 < ch) := by omega
  refine ⟨?_, ?_, ?_, ?_⟩
  · intro dev ha
    simp [validateSendTextParams, h1, h3, h4, h5, h6, h5b, h6b, ha]
  · intro ha hd
    have h2 : ¬ 7 < anim := by omega
    have hcond : (d.height ≠ 32 ∨ d.width ≠ 32) ∧ (anim = 3 ∨ anim = 4) := ⟨hd, ha⟩
    simp [validateSendTextParams, h1, h2, h3, h4, h5, h6, h5b, h6b, hcond]
  · intro ha
    have h2 : ¬ 7 < anim := by omega
    simp [validateSendTextParams, h1, h2, h3, h4, h5, h6, h5b, h6b]
  · intro ha hw hh
    have h2 : ¬ 7 < anim := by omega
    have hcond : ¬ ((d.height ≠ 32 ∨ d.width ≠ 32) ∧ (anim = 3 ∨ anim = 4)) := by
      simp [hw, hh]
    simp [validateSendTextParams, h1, h2, h3, h4, h5, h6, h5b, h6b, hcond]

/-- Witness for C7 amended: animation 3 on a 16×16 device is rejected,
and the same animation 3 on a 32×32 device is accepted. -/
theorem c7_validation_amended_witness :
    validateSendTextParams 0 3 0 80 2 16 (some (DeviceInfo.mk 16 16))
      = .error "This animation is not supported with this font on non-32x32 devices."
    ∧ validateSendTextParams 0 3 0 80 2 16 (some (DeviceInfo.mk 32 32)) = .ok () :=
  ⟨(c7_validation_amended 0 3 0 80 2 16 (DeviceInfo.mk 16 16) (by norm_num)
      (by norm_num) (by norm_num) (by norm_num) (by norm_num)).2.1
    (Or.inl rfl) (Or.inl (by norm_num)),
   (c7_validation_amended 0 3 0 80 2 16 (DeviceInfo.mk 32 32) (by norm_num)
      (by norm_num) (by norm_num) (by norm_num) (by norm_num)).2.2.2
    (by norm_num) rfl rfl⟩

/-- C8 counterexample: a static (non-GIF) image payload of 12289 bytes
spans two windows whose serial bytes are equal, so the serial does not
differ for every image-class command. -/
theorem c8_static_serial_counterexample :
    ∃ w₁ w₂, sendImageWindows (List.replicate 12289 0) false = [w₁, w₂]
      ∧ w₁.serialByte = w₂.serialByte := by
  obtain ⟨w₁, w₂, hw, h1, h2⟩ :=
    sendImage_static_12289_serials (List.replicate 12289 0)
      (List.length_replicate 12289 0)
  exact ⟨w₁, w₂, hw, by rw [h1, h2]⟩

/-- C8 amended: the serial byte distinguishes first window (0x01) from
continuations (0x65) only for animated (GIF) image commands; static
image windows all carry the constant 0x65. -/
theorem c8_serial_amended (fileBytes : List Nat)
    (hlong : 12288 < fileBytes.length) :
    (∃ w₀ rest, sendImageWindows fileBytes true = w₀ :: rest
      ∧ rest ≠ []
      ∧ w₀.serialByte = some 0x01
      ∧ ∀ w ∈ rest, w.serialByte = some 0x65)
    ∧ ∀ w ∈ sendImageWindows fileBytes false, w.serialByte = some 0x65 := by
  have hP : fileBytes ≠ [] := by
    intro hnil
    rw [hnil] at hlong
    simp at hlong
  constructor
  · unfold sendImageWindows
    rw [sendImageFramesLoop_cons _ _ _ _ 0 hP]
    refine ⟨_, _, rfl, ?_, ?_, ?_⟩
    · have hdropne : fileBytes.drop windowSize ≠ [] := by
        intro hnil
        have h2 := congrArg List.length hnil
        rw [List.length_drop] at h2
        simp [windowSize] at h2
        omega
      rw [sendImageFramesLoop_cons _ _ _ _ 1 hdropne]
      simp
    · rw [sendImageHeader_serialByte _ _ _ _ _ _ (toLE_length 4 _) (toLE_length 4 _)]
      rfl
    · intro w hw
      exact sendImageFramesLoop_gif_tail_serial _ _ (toLE_length 4 _) (toLE_length 4 _)
        (fileBytes.drop windowSize).length _ 1 (Nat.le_refl _) (by omega) w hw
  · intro w hw
    exact sendImageFramesLoop_static_serial _ _ (toLE_length 4 _) (toLE_length 4 _)
      fileBytes.length _ 0 (Nat.le_refl _) w hw

/-- Witness for C8 amended at the concrete 12289-byte all-zero payload. -/
theorem c8_serial_amended_witness :
    (∃ w₀ rest, sendImageWindows (List.replicate 12289 0) true = w₀ :: rest
      ∧ rest ≠ []
      ∧ w₀.serialByte = some 0x01
      ∧ ∀ w ∈ rest, w.serialByte = some 0x65)
    ∧ ∀ w ∈ sendImageWindows (List.replicate 12289 0) false,
        w.serialByte = some 0x65 :=
  c8_serial_amended (List.replicate 12289 0)
    (by rw [List.length_replicate]; omega)

/-- C9: a failed emoji fetch never decides success of the text encoding
on either path — chunked (variable-width) or fixed-width — the item and
block counts skip exactly the tokens whose fetch failed, and both the
variable-width and fixed-width `send_text` paths still produce a
SendPlan from any successful encoding pass. -/
theorem c9_emoji_failure_skipped (isEmo : Char → Bool)
    (fetch₁ fetch₂ : Char → Option (List Nat))
    (render : List Char → List PixelImage)
    (charToHex : Char → Option (List Nat)) (h : Nat) (color : List Nat)
    (rev : Bool) (text : List Char) :
    isOkE (encode_text_chunked isEmo fetch₁ render h color rev text)
      = isOkE (encode_text_chunked isEmo fetch₂ render h color rev text)
    ∧ (∀ bs n,
        encode_text_chunked isEmo fetch₁ render h color rev text = .ok (bs, n) →
          n = expectedItemCount fetch₁ render (segmentsOf isEmo text))
    ∧ (∀ anim speed rainbow slot bg bs n,
        encode_text_chunked isEmo fetch₁ render h color (anim == 2) text = .ok (bs, n) →
        n ≤ 255 →
        ∃ plan, send_text_var isEmo fetch₁ render anim speed rainbow slot h color bg text
          = .ok plan)
    ∧ isOkE (encodeTextFixedBlocks isEmo fetch₁ charToHex h color text)
        = isOkE (encodeTextFixedBlocks isEmo fetch₂ charToHex h color text)
    ∧ (∀ blocks,
        encodeTextFixedBlocks isEmo fetch₁ charToHex h color text = .ok blocks →
          blocks.length = expectedFixedBlockCount isEmo fetch₁ charToHex text)
    ∧ (∀ anim speed rainbow slot bg blocks,
        color.length = 3 →
        encodeTextFixedBlocks isEmo fetch₁ charToHex h color
          (if anim == 2 then text.reverse else text) = .ok blocks →
        text.length ≤ 255 →
        ∃ plan, send_text_fixed isEmo fetch₁ charToHex anim speed rainbow slot h color bg text
          = .ok plan) := by
  refine ⟨?_, ?_, ?_, ?_, ?_, ?_⟩
  · by_cases hc : color.length ≠ 3
    · simp [encode_text_chunked, hc, isOkE]
    · have hind := itemsOfSegments_isOk_fetch_indep fetch₁ fetch₂ render h color
        (segmentsOf isEmo text)
      simp only [encode_text_chunked, if_neg hc]
      cases h1 : itemsOfSegments fetch₁ render h color (segmentsOf isEmo text) <;>
      cases h2 : itemsOfSegments fetch₂ render h color (segmentsOf isEmo text) <;>
      rw [h1, h2] at hind <;>
      simp [isOkE] at hind ⊢
  · intro bs n hok
    simp only [encode_text_chunked] at hok
    by_cases hc : color.length ≠ 3
    · rw [if_pos hc] at hok
      exact absurd hok (by simp)
    · rw [if_neg hc] at hok
      cases hi : itemsOfSegments fetch₁ render h color (segmentsOf isEmo text) with
      | error e =>
        rw [hi] at hok
        exact absurd hok (by simp)
      | ok items =>
        rw [hi] at hok
        simp at hok
        have hn : n = (if rev then items.reverse else items).length := hok.2.symm
        rw [hn]
        have hlen : (if rev then items.reverse else items).length = items.length := by
          cases rev <;> simp
        rw [hlen]
        exact itemsOfSegments_ok_length fetch₁ render h color _ items hi
  · intro anim speed rainbow slot bg bs n hok hn
    have hnot : ¬ 255 < n := by omega
    simp only [send_text_var, hok, if_neg hnot]
    exact ⟨_, rfl⟩
  · exact fixedBlocks_isOk_emoji_indep isEmo fetch₁ fetch₂ charToHex h color text
  · intro blocks hok
    exact encodeTextFixedBlocks_ok_length isEmo fetch₁ charToHex h color text blocks hok
  · intro anim speed rainbow slot bg blocks hc3 hok hlen
    have hng : ¬ color.length ≠ 3 := by omega
    have hn255 : ¬ 255 < text.length := by omega
    simp only [send_text_fixed, if_neg hng, hok, if_neg hn255]
    exact ⟨_, rfl⟩

/-- Witness for C9: a one-emoji text whose fetch fails on the chunked
path, and the two-character C1 text (glyph plus failed emoji) on the
fixed-width path. -/
theorem c9_emoji_failure_skipped_witness :
    (isOkE (encode_text_chunked exIsEmoji exEmojiFetchFail exRenderEmpty 16 exColor
        false (String.toList "e"))
      = isOkE (encode_text_chunked exIsEmoji exEmojiFetchOk exRenderEmpty 16 exColor
        false (String.toList "e")))
    ∧ (0 : Nat) = expectedItemCount exEmojiFetchFail exRenderEmpty
        (segmentsOf exIsEmoji (String.toList "e"))
    ∧ (∃ plan, send_text_var exIsEmoji exEmojiFetchFail exRenderEmpty 0 80 0 0 16
        exColor none (String.toList "e") = .ok plan)
    ∧ (isOkE (encodeTextFixedBlocks exIsEmoji exEmojiFetchFail exCharToHex 16 exColor
        exText)
      = isOkE (encodeTextFixedBlocks exIsEmoji exEmojiFetchOk exCharToHex 16 exColor
        exText))
    ∧ [exFixedBlock].length
        = expectedFixedBlockCount exIsEmoji exEmojiFetchFail exCharToHex exText
    ∧ ∃ plan, send_text_fixed exIsEmoji exEmojiFetchFail exCharToHex 0 80 0 0 16
        exColor none exText = .ok plan := by
  refine ⟨?_, ?_, ?_, ?_, ?_, ?_⟩
  · exact (c9_emoji_failure_skipped exIsEmoji exEmojiFetchFail exEmojiFetchOk
      exRenderEmpty exCharToHex 16 exColor false (String.toList "e")).1
  · exact (c9_emoji_failure_skipped exIsEmoji exEmojiFetchFail exEmojiFetchOk
      exRenderEmpty exCharToHex 16 exColor false (String.toList "e")).2.1 [] 0 rfl
  · exact (c9_emoji_failure_skipped exIsEmoji exEmojiFetchFail exEmojiFetchOk
      exRenderEmpty exCharToHex 16 exColor false (String.toList "e")).2.2.1 0 80 0 0
      none [] 0 rfl (by omega)
  · exact (c9_emoji_failure_skipped exIsEmoji exEmojiFetchFail exEmojiFetchOk
      exRenderEmpty exCharToHex 16 exColor false exText).2.2.2.1
  · exact (c9_emoji_failure_skipped exIsEmoji exEmojiFetchFail exEmojiFetchOk
      exRenderEmpty exCharToHex 16 exColor false exText).2.2.2.2.1 [exFixedBlock] rfl
  · exact (c9_emoji_failure_skipped exIsEmoji exEmojiFetchFail exEmojiFetchOk
      exRenderEmpty exCharToHex 16 exColor false exText).2.2.2.2.2 0 80 0 0 none
      [exFixedBlock] rfl rfl (by decide)

/-- C10: the scoreboard commands depend on importing `_build_send_plan`
from the send_image module, which binds no such name, so neither command
ever returns a SendPlan. -/
theorem c10_scoreboard_import_fails :
    ∀ body₁ body₂ : Unit → Except String SendPlan,
      isOkE (set_sb_teams_model body₁) = false
      ∧ isOkE (set_sb_score_model body₂) = false := by
  intro b1 b2
  constructor
  · rfl
  · rfl

end PyPixelColor
